import Mathlib

/-!
Verification of the go-commerce Authentication & Token Lifecycle Subsystem.

The Go sources are shallowly embedded as pure Lean functions:
  * cryptographic primitives (SHA-256, HMAC, bcrypt) are modelled
    symbolically as injective constructors, keeping only determinism
    and collision-freedom;
  * the Postgres-backed repositories are modelled as pure functions over
    lists of rows, translating the SQL statements of
    `internal/user/repo/postgres_refresh_token.go` and
    `internal/user/repo/postgres_user.go`;
  * the orchestrating `AuthService` methods are translated line by line
    from the service package, with the random values drawn by
    `crypto/rand` passed in explicitly as an `Entropy` record;
  * machine time (`time.Time`, `time.Duration`) is modelled as `Int`
    (seconds).
-/

set_option autoImplicit false

namespace GoCommerce

/-- Go's `strings.TrimSpace`: drop leading and trailing whitespace. Defined
over the character list so that concrete instances reduce in the kernel. -/
def strTrim (s : String) : String :=
  ⟨((s.data.dropWhile Char.isWhitespace).reverse.dropWhile Char.isWhitespace).reverse⟩

/-- Go's `strings.ToLower`, restricted to the simple per-character folding
used on the ASCII inputs of this subsystem. -/
def strToLower (s : String) : String := ⟨s.data.map Char.toLower⟩

/-- Go's `strings.HasPrefix`. -/
def strStartsWith (s pre : String) : Bool := pre.data.isPrefixOf s.data

/-- Splitting a character list at every separator, keeping empty pieces
(`n` separators give `n + 1` pieces). -/
def splitChars (p : Char → Bool) : List Char → List (List Char)
| [] => [[]]
| c :: cs =>
  if p c then [] :: splitChars p cs
  else
    match splitChars p cs with
    | [] => [[c]]
    | piece :: rest => (c :: piece) :: rest

/-- Go's `strings.Fields`: split around runs of whitespace, dropping
empty pieces. -/
def strFields (s : String) : List String :=
  ((splitChars Char.isWhitespace s.data).filter (fun piece => !piece.isEmpty)).map
    (fun piece => ⟨piece⟩)

/-- Symbolic SHA-256 digest: `auth.HashToken` returns the SHA-256 of a raw
token; the model keeps the digest as an injective wrapper of the preimage,
capturing determinism and (idealized) collision freedom. -/
structure Sha256 where
  preimage : String
deriving DecidableEq, Repr

/-- Translation of `auth.HashToken` (internal/user/auth, HashToken): the
SHA-256 digest of an opaque token, in the symbolic digest model. -/
def HashToken (token : String) : Sha256 := ⟨token⟩

/-- Errors surfaced by the repo package: `repo.ErrNotFound`,
`repo.ErrEmailTaken`, and any other (infrastructure) error, which the
service layer wraps as unavailable. -/
inductive RepoErr
| notFound
| emailTaken
| infra (op : String)
deriving DecidableEq, Repr

/-- A persisted refresh token row (`repo.RefreshToken`). -/
structure RefreshTokenRow where
  id : String
  userId : String
  tokenHash : Sha256
  expiresAt : Int
  revokedAt : Option Int
  createdAt : Int
deriving DecidableEq, Repr

/-- Input to insert a refresh token (`repo.CreateRefreshTokenParams`). -/
structure CreateRefreshTokenParams where
  id : String
  userId : String
  tokenHash : Sha256
  expiresAt : Int
deriving DecidableEq, Repr

/-- The refresh_tokens table, one row per issuance event. -/
abbrev RefreshStore := List RefreshTokenRow

/-- The WHERE clause of `PostgresRefreshTokenRepository.GetValidByHash`:
`token_hash = $1 AND revoked_at IS NULL AND expires_at > $2`. -/
def rowMatchesValid (tokenHash : Sha256) (now : Int) (r : RefreshTokenRow) : Bool :=
  r.tokenHash == tokenHash && r.revokedAt == none && now < r.expiresAt

/-- Translation of `PostgresRefreshTokenRepository.GetValidByHash`
(postgres_refresh_token.go:41-68): select a currently-valid row by hash,
`ErrNotFound` when no row matches. -/
def GetValidByHash (st : RefreshStore) (tokenHash : Sha256) (now : Int) :
    Except RepoErr RefreshTokenRow :=
  match st.find? (rowMatchesValid tokenHash now) with
  | some r => .ok r
  | none => .error .notFound

/-- The row update of `PostgresRefreshTokenRepository.Revoke`:
`SET revoked_at = $2 WHERE id = $1 AND revoked_at IS NULL` applied to one
row. -/
def revokeRow (tokenID : String) (revokedAt : Int) (r : RefreshTokenRow) : RefreshTokenRow :=
  if r.id == tokenID && r.revokedAt == none then { r with revokedAt := some revokedAt } else r

/-- Translation of `PostgresRefreshTokenRepository.Revoke`
(postgres_refresh_token.go:70-86): conditional update guarded by
`revoked_at IS NULL`; when no row is affected the repository returns
`ErrNotFound`. -/
def Revoke (st : RefreshStore) (tokenID : String) (revokedAt : Int) :
    Except RepoErr RefreshStore :=
  if st.any (fun r => r.id == tokenID && r.revokedAt == none) then
    .ok (st.map (revokeRow tokenID revokedAt))
  else
    .error .notFound

/-- Translation of `PostgresRefreshTokenRepository.Insert`
(postgres_refresh_token.go:23-39): appends a fresh row with NULL
revoked_at and `created_at` defaulted to the insertion time. -/
def InsertRefreshToken (st : RefreshStore) (p : CreateRefreshTokenParams) (createdAt : Int) :
    RefreshStore :=
  st ++ [⟨p.id, p.userId, p.tokenHash, p.expiresAt, none, createdAt⟩]

/-- Symbolic bcrypt digest: `auth.BcryptHasher` hashes with bcrypt; the
model keeps the digest as an injective wrapper of the password, capturing
that `Verify (Hash p) q` succeeds exactly when `q = p`. -/
structure BcryptHash where
  ofPassword : String
deriving DecidableEq, Repr

/-- Translation of `BcryptHasher.Hash` (internal/user/auth/password.go) in
the symbolic digest model. -/
def BcryptHasher.hash (password : String) : BcryptHash := ⟨password⟩

/-- Translation of `BcryptHasher.Verify` (internal/user/auth/password.go):
bcrypt comparison of a stored digest against a candidate password. -/
def BcryptHasher.verify (storedHash : BcryptHash) (password : String) : Bool :=
  storedHash == BcryptHasher.hash password

/-- A persisted user row (`repo.User`). -/
structure UserRow where
  id : String
  email : String
  name : String
  passwordHash : BcryptHash
  roles : List String
  createdAt : Int
deriving DecidableEq, Repr

/-- Input to create a user (`repo.CreateUserParams`). -/
structure CreateUserParams where
  id : String
  email : String
  name : String
  passwordHash : BcryptHash
  roles : List String
deriving DecidableEq, Repr

/-- The users table; email is uniquely indexed. -/
abbrev UserStore := List UserRow

/-- Translation of `PostgresUserRepository.Create`
(postgres_user.go:23-54): INSERT with RETURNING; the Postgres unique
violation 23505 on email surfaces as `ErrEmailTaken`. -/
def CreateUser (us : UserStore) (params : CreateUserParams) (createdAt : Int) :
    Except RepoErr (UserRow × UserStore) :=
  if us.any (fun u => u.email == params.email) then
    .error .emailTaken
  else
    let row : UserRow :=
      ⟨params.id, params.email, params.name, params.passwordHash, params.roles, createdAt⟩
    .ok (row, us ++ [row])

/-- Translation of `PostgresUserRepository.GetByEmail`
(postgres_user.go:56-80): SELECT by email, `ErrNotFound` on no row. -/
def GetByEmail (us : UserStore) (email : String) : Except RepoErr UserRow :=
  match us.find? (fun u => u.email == email) with
  | some u => .ok u
  | none => .error .notFound

/-- Translation of `PostgresUserRepository.GetByID`
(postgres_user.go:82-106): SELECT by id, `ErrNotFound` on no row. -/
def GetByID (us : UserStore) (userID : String) : Except RepoErr UserRow :=
  match us.find? (fun u => u.id == userID) with
  | some u => .ok u
  | none => .error .notFound

/-- JWT claims of an access token (`auth.AccessTokenClaims`): the custom
`roles` claim plus the registered claims set by `SignAccessToken`. -/
structure AccessTokenClaims where
  roles : List String
  subject : String
  issuer : String
  issuedAt : Int
  expiresAt : Int
  jti : String
deriving DecidableEq, Repr

/-- Symbolic HMAC-SHA256 signature over a serialized claims set: an
injective record of the signing key, the algorithm of the token header and
the claims, capturing that verification succeeds exactly when the verifier
recomputes the same MAC with the same key over the same message. -/
structure HmacSig where
  secret : String
  alg : String
  signedClaims : AccessTokenClaims
deriving DecidableEq, Repr

/-- The symbolic HMAC computation used by the golang-jwt signing method. -/
def hmacSign (secret : String) (alg : String) (claims : AccessTokenClaims) : HmacSig :=
  ⟨secret, alg, claims⟩

/-- A parsed JWT: header algorithm, claims and signature. -/
structure JwtToken where
  alg : String
  claims : AccessTokenClaims
  sig : HmacSig
deriving DecidableEq, Repr

/-- Translation of `auth.JWTManager`: pre-shared secret, issuer, injected
clock (the `now` field, `time.Now` in production, overridden in tests). -/
structure JWTManager where
  secret : String
  issuer : String
  now : Int
deriving DecidableEq, Repr

/-- The two sentinel verification errors of the auth package
(`auth.ErrInvalidToken`, `auth.ErrExpiredToken`). -/
inductive TokenErr
| invalidToken
| expiredToken
deriving DecidableEq, Repr

/-- Translation of `JWTManager.SignAccessToken`
(internal/user/auth, SignAccessToken): rejects blank user id and
non-positive ttl, then signs HS256 claims with subject, issuer, iat, exp
and a fresh jti (the jti drawn from `crypto/rand` is passed explicitly). -/
def SignAccessToken (m : JWTManager) (userID : String) (roles : List String) (ttl : Int)
    (jti : String) : Except String (JwtToken × Int) :=
  if strTrim userID == "" then .error "user id is required"
  else if ttl ≤ 0 then .error "access token ttl must be > 0"
  else
    let expiresAt := m.now + ttl
    let claims : AccessTokenClaims := ⟨roles, userID, m.issuer, m.now, expiresAt, jti⟩
    .ok (⟨"HS256", claims, hmacSign m.secret "HS256" claims⟩, expiresAt)

/-- Translation of `JWTManager.VerifyAccessToken`
(internal/user/auth, VerifyAccessToken). The wrapper logic (error mapping
to `ErrExpiredToken`/`ErrInvalidToken`, the post-parse blank-subject
check) follows the source. The golang-jwt v5 parser internals are not
part of this repository; they are modelled from the spec: algorithm
allow-list (`WithValidMethods`), signature verification, issuer match
(`WithIssuer`) and expiry against the injected clock (`WithTimeFunc`),
with expiry reported only for an otherwise cryptographically valid,
correctly-issued token. The blank-subject check runs after parsing, as in
the source, so it is only reached by unexpired tokens. -/
def VerifyAccessToken (m : JWTManager) (tok : JwtToken) :
    Except TokenErr (String × List String) :=
  if tok.alg != "HS256" then .error .invalidToken
  else if tok.sig != hmacSign m.secret tok.alg tok.claims then .error .invalidToken
  else if tok.claims.issuer != m.issuer then .error .invalidToken
  else if !(decide (m.now < tok.claims.expiresAt)) then .error .expiredToken
  else if strTrim tok.claims.subject == "" then .error .invalidToken
  else .ok (tok.claims.subject, tok.claims.roles)

/-- Translation of `service.DomainError`: a classified, user-safe business
failure `{Code, Message}`. -/
structure DomainError where
  code : String
  message : String
deriving DecidableEq, Repr

/-- The error-code constants of the service package. -/
def CodeAuthInvalidCredentials : String := "AUTH_INVALID_CREDENTIALS"

/-- The `AUTH_EMAIL_TAKEN` constant of the service package. -/
def CodeAuthEmailTaken : String := "AUTH_EMAIL_TAKEN"

/-- The `AUTH_INVALID_REFRESH_TOKEN` constant of the service package. -/
def CodeAuthInvalidRefreshToken : String := "AUTH_INVALID_REFRESH_TOKEN"

/-- The domain error value every invalid-credential branch of the service
constructs. -/
def invalidCredentialsErr : DomainError := ⟨CodeAuthInvalidCredentials, "invalid credentials"⟩

/-- The domain error value every invalid-refresh-token branch of the
service constructs. -/
def invalidRefreshTokenErr : DomainError := ⟨CodeAuthInvalidRefreshToken, "invalid refresh token"⟩

/-- The domain error for a taken email at registration. -/
def emailTakenErr : DomainError := ⟨CodeAuthEmailTaken, "email already taken"⟩

/-- Translation of the service-layer `service.User`. The Go zero value
`User\x7b\x7d` is `User.empty`. -/
structure User where
  id : String
  email : String
  name : String
  roles : List String
  createdAt : Int
deriving DecidableEq, Repr

/-- The Go zero value of `service.User`. -/
def User.empty : User := ⟨"", "", "", [], 0⟩

/-- Translation of `service.AuthTokens`. The access token is kept
structured (`none` models the zero-value empty string). -/
structure AuthTokens where
  accessToken : Option JwtToken
  refreshToken : String
  accessExpiresInSeconds : Int
  refreshExpiresInSeconds : Int
deriving DecidableEq, Repr

/-- The Go zero value of `service.AuthTokens`. -/
def AuthTokens.empty : AuthTokens := ⟨none, "", 0, 0⟩

/-- The random values the service draws from `crypto/rand` during one
operation (`auth.NewID` / `auth.NewRefreshToken` calls), passed in
explicitly to keep the embedding pure. -/
structure Entropy where
  userID : String
  jti : String
  rawRefreshToken : String
  refreshTokenID : String
deriving DecidableEq, Repr

/-- The state an `AuthService` operates on: the two tables owned by the
persistence collaborator plus the injected configuration and clock
(`secret`, `issuer`, the two TTLs in seconds, `now`). -/
structure AuthWorld where
  users : UserStore
  refreshTokens : RefreshStore
  secret : String
  issuer : String
  accessTokenTTL : Int
  refreshTTL : Int
  now : Int
deriving DecidableEq, Repr

/-- The JWT manager an `AuthWorld` wires into the service. -/
def AuthWorld.jwt (w : AuthWorld) : JWTManager := ⟨w.secret, w.issuer, w.now⟩

/-- Translation of `service.mapUser`: service-layer copy of a persisted
user row (the defensive slice copy is identity on immutable lists). -/
def mapUser (u : UserRow) : User := ⟨u.id, u.email, u.name, u.roles, u.createdAt⟩

/-- The Go-style result of `AuthService.Login` / `AuthService.Register`:
`(User, AuthTokens, *DomainError, error)`, with the infrastructure error
channel carried as an optional operation tag. -/
structure LoginResult where
  user : User
  tokens : AuthTokens
  domainErr : Option DomainError
  infraErr : Option String
deriving DecidableEq, Repr

/-- The Go-style result of `AuthService.RefreshToken`:
`(AuthTokens, *DomainError, error)`. -/
structure RefreshResult where
  tokens : AuthTokens
  domainErr : Option DomainError
  infraErr : Option String
deriving DecidableEq, Repr

/-- Translation of `AuthService.issueTokens` (service package, lines
276-308): sign a fresh access token, generate a raw refresh token and id,
insert the hashed refresh record expiring at `now + refreshTTL`, and
return the pair. Returns the updated refresh store alongside. -/
def issueTokens (w : AuthWorld) (ent : Entropy) (userID : String) (roles : List String) :
    Except String (AuthTokens × RefreshStore) :=
  match SignAccessToken w.jwt userID roles w.accessTokenTTL ent.jti with
  | .error e => .error e
  | .ok (accessToken, _) =>
    let rawRefreshToken := ent.rawRefreshToken
    let refreshTokenID := ent.refreshTokenID
    let refreshTokenExpiry := w.now + w.refreshTTL
    let st := InsertRefreshToken w.refreshTokens
      ⟨refreshTokenID, userID, HashToken rawRefreshToken, refreshTokenExpiry⟩ w.now
    .ok (⟨some accessToken, rawRefreshToken, w.accessTokenTTL, w.refreshTTL⟩, st)

/-- Translation of `AuthService.Login` (service package, lines 173-197):
normalize the email, reject blank input, look up by email, verify the
bcrypt hash, then issue tokens; unknown email and failed verification
both return the same `AUTH_INVALID_CREDENTIALS` value with zero payloads. -/
def Login (w : AuthWorld) (ent : Entropy) (email password : String) :
    AuthWorld × LoginResult :=
  let normalizedEmail := strToLower (strTrim email)
  if normalizedEmail == "" || strTrim password == "" then
    (w, ⟨User.empty, AuthTokens.empty, some invalidCredentialsErr, none⟩)
  else
    match GetByEmail w.users normalizedEmail with
    | .error .notFound => (w, ⟨User.empty, AuthTokens.empty, some invalidCredentialsErr, none⟩)
    | .error _ => (w, ⟨User.empty, AuthTokens.empty, none, some "get user by email"⟩)
    | .ok persistedUser =>
      if !(BcryptHasher.verify persistedUser.passwordHash password) then
        (w, ⟨User.empty, AuthTokens.empty, some invalidCredentialsErr, none⟩)
      else
        match issueTokens w ent persistedUser.id persistedUser.roles with
        | .error e => (w, ⟨User.empty, AuthTokens.empty, none, some e⟩)
        | .ok (tokens, st) =>
          ({ w with refreshTokens := st }, ⟨mapUser persistedUser, tokens, none, none⟩)

/-- Translation of `AuthService.Register` (service package, lines
133-170): normalize inputs, reject blanks, hash the password, create the
user with the hard-coded role list `["customer"]`, then issue tokens. -/
def Register (w : AuthWorld) (ent : Entropy) (email password name : String) :
    AuthWorld × LoginResult :=
  let normalizedEmail := strToLower (strTrim email)
  let trimmedName := strTrim name
  if normalizedEmail == "" || strTrim password == "" || trimmedName == "" then
    (w, ⟨User.empty, AuthTokens.empty, some invalidCredentialsErr, none⟩)
  else
    let passwordHash := BcryptHasher.hash password
    let userID := ent.userID
    match CreateUser w.users ⟨userID, normalizedEmail, trimmedName, passwordHash, ["customer"]⟩ w.now with
    | .error .emailTaken => (w, ⟨User.empty, AuthTokens.empty, some emailTakenErr, none⟩)
    | .error _ => (w, ⟨User.empty, AuthTokens.empty, none, some "create user"⟩)
    | .ok (createdUser, users2) =>
      match issueTokens { w with users := users2 } ent createdUser.id createdUser.roles with
      | .error e => ({ w with users := users2 }, ⟨User.empty, AuthTokens.empty, none, some e⟩)
      | .ok (tokens, st) =>
        ({ w with users := users2, refreshTokens := st },
          ⟨mapUser createdUser, tokens, none, none⟩)

/-- Translation of `AuthService.RefreshToken` (service package, lines
200-236): trim and reject blank input, hash the presented raw token, look
up a currently-valid record, load the owning user, revoke the found
record, then issue a brand-new pair. `ErrNotFound` at any lookup or at
revoke maps to `AUTH_INVALID_REFRESH_TOKEN`; any other repository error
maps to the infrastructure channel. -/
def RefreshToken (w : AuthWorld) (ent : Entropy) (refreshToken : String) :
    AuthWorld × RefreshResult :=
  let trimmedToken := strTrim refreshToken
  if trimmedToken == "" then
    (w, ⟨AuthTokens.empty, some invalidRefreshTokenErr, none⟩)
  else
    let tokenHash := HashToken trimmedToken
    match GetValidByHash w.refreshTokens tokenHash w.now with
    | .error .notFound => (w, ⟨AuthTokens.empty, some invalidRefreshTokenErr, none⟩)
    | .error _ => (w, ⟨AuthTokens.empty, none, some "get valid refresh token"⟩)
    | .ok storedToken =>
      match GetByID w.users storedToken.userId with
      | .error .notFound => (w, ⟨AuthTokens.empty, some invalidRefreshTokenErr, none⟩)
      | .error _ => (w, ⟨AuthTokens.empty, none, some "get user by id"⟩)
      | .ok persistedUser =>
        match Revoke w.refreshTokens storedToken.id w.now with
        | .error .notFound => (w, ⟨AuthTokens.empty, some invalidRefreshTokenErr, none⟩)
        | .error _ => (w, ⟨AuthTokens.empty, none, some "revoke refresh token"⟩)
        | .ok revokedStore =>
          match issueTokens { w with refreshTokens := revokedStore } ent
              persistedUser.id persistedUser.roles with
          | .error e => ({ w with refreshTokens := revokedStore }, ⟨AuthTokens.empty, none, some e⟩)
          | .ok (tokens, st) => ({ w with refreshTokens := st }, ⟨tokens, none, none⟩)

/-- The dependency interfaces `AuthService.RefreshToken` calls through
(`repo.RefreshTokenRepository`, `repo.UserRepository`,
`service.AccessTokenManager`), as result oracles: each field gives the
outcome the dependency would return, including failure injections. -/
structure RefreshDeps where
  getValidByHash : Sha256 → Int → Except RepoErr RefreshTokenRow
  getUserByID : String → Except RepoErr UserRow
  revoke : String → Int → Except RepoErr Unit
  signAccessToken : String → List String → Int → Except String JwtToken
  insertRefreshToken : CreateRefreshTokenParams → Except RepoErr Unit

/-- An observable side effect of one service operation: an access token
was signed, or a refresh record was inserted. -/
inductive Effect
| signedAccess (userID : String) (roles : List String)
| insertedRefresh (params : CreateRefreshTokenParams)
deriving DecidableEq, Repr

/-- Effect-traced translation of `AuthService.issueTokens` over dependency
oracles, recording which side effects occurred in order. -/
def issueTokensT (d : RefreshDeps) (now accessTokenTTL refreshTTL : Int) (ent : Entropy)
    (userID : String) (roles : List String) : Except String AuthTokens × List Effect :=
  match d.signAccessToken userID roles accessTokenTTL with
  | .error e => (.error e, [])
  | .ok accessToken =>
    let params : CreateRefreshTokenParams :=
      ⟨ent.refreshTokenID, userID, HashToken ent.rawRefreshToken, now + refreshTTL⟩
    match d.insertRefreshToken params with
    | .error _ => (.error "insert refresh token", [.signedAccess userID roles])
    | .ok _ =>
      (.ok ⟨some accessToken, ent.rawRefreshToken, accessTokenTTL, refreshTTL⟩,
        [.signedAccess userID roles, .insertedRefresh params])

/-- Effect-traced translation of `AuthService.RefreshToken` (service
package, lines 200-236) over dependency oracles, mirroring the source's
sequencing: lookup, user load, revoke, and only then `issueTokens`. -/
def RefreshTokenT (d : RefreshDeps) (now accessTokenTTL refreshTTL : Int) (ent : Entropy)
    (refreshToken : String) : RefreshResult × List Effect :=
  let trimmedToken := strTrim refreshToken
  if trimmedToken == "" then
    (⟨AuthTokens.empty, some invalidRefreshTokenErr, none⟩, [])
  else
    match d.getValidByHash (HashToken trimmedToken) now with
    | .error .notFound => (⟨AuthTokens.empty, some invalidRefreshTokenErr, none⟩, [])
    | .error _ => (⟨AuthTokens.empty, none, some "get valid refresh token"⟩, [])
    | .ok storedToken =>
      match d.getUserByID storedToken.userId with
      | .error .notFound => (⟨AuthTokens.empty, some invalidRefreshTokenErr, none⟩, [])
      | .error _ => (⟨AuthTokens.empty, none, some "get user by id"⟩, [])
      | .ok persistedUser =>
        match d.revoke storedToken.id now with
        | .error .notFound => (⟨AuthTokens.empty, some invalidRefreshTokenErr, none⟩, [])
        | .error _ => (⟨AuthTokens.empty, none, some "revoke refresh token"⟩, [])
        | .ok _ =>
          match issueTokensT d now accessTokenTTL refreshTTL ent
              persistedUser.id persistedUser.roles with
          | (.error e, evs) => (⟨AuthTokens.empty, none, some e⟩, evs)
          | (.ok tokens, evs) => (⟨tokens, none, none⟩, evs)

/-- A gRPC status code, as consumed by the middleware's
`status.FromError` classification. -/
inductive GrpcCode
| okCode
| cancelledCode
| unknownCode
| deadlineExceeded
| unavailable
| internalCode
deriving DecidableEq, Repr

/-- The shapes of error the gateway's `TokenValidator.ValidateAccessToken`
can return: a contract error carrying a stable domain code
(`usersclient.ValidateAccessTokenError`, which implements `Code()`),
`context.DeadlineExceeded`, `context.Canceled`, a gRPC status error, or
any other plain error. -/
inductive ValidatorErr
| coded (code : String) (message : String)
| ctxDeadlineExceeded
| ctxCanceled
| grpcStatus (code : GrpcCode) (message : String)
| plain (message : String)
deriving DecidableEq, Repr

/-- Translation of `middleware.isInvalidTokenError`
(gateway middleware, lines 147-153): `errors.As` to the `codedError`
interface, then `strings.HasPrefix(code, "AUTH_INVALID_")`. Only the
contract error type implements `Code()`. -/
def isInvalidTokenError : ValidatorErr → Bool
| .coded code _ => strStartsWith code "AUTH_INVALID_"
| _ => false

/-- Translation of `middleware.isUnavailableError`
(gateway middleware, lines 155-171): `errors.Is` against
`context.DeadlineExceeded` / `context.Canceled`, then `status.FromError`
with `codes.Unavailable` or `codes.DeadlineExceeded`; plain and contract
errors are not status errors, so `FromError` reports not-ok for them. -/
def isUnavailableError : ValidatorErr → Bool
| .ctxDeadlineExceeded => true
| .ctxCanceled => true
| .grpcStatus code _ => code == GrpcCode.unavailable || code == GrpcCode.deadlineExceeded
| _ => false

/-- Go's `strings.EqualFold`, restricted to the simple case folding the
middleware needs for the ASCII scheme word. -/
def equalFold (a b : String) : Bool := strToLower a == strToLower b

/-- Translation of `middleware.extractBearerToken` (gateway middleware,
lines 139-145): `strings.Fields` (split on whitespace runs), then require
exactly two fields, a case-insensitive `Bearer` scheme and a non-empty
token. -/
def extractBearerToken (headerValue : String) : Option String :=
  let parts := strFields headerValue
  match parts with
  | [scheme, token] =>
    if equalFold scheme "Bearer" && token != "" then some token else none
  | _ => none

/-- An HTTP response the middleware writes: status code plus the JSON
object payload as its key-value pairs. -/
structure HttpResponse where
  status : Nat
  body : List (String × String)
deriving DecidableEq, Repr

/-- The 401 response `writeJSON(w, http.StatusUnauthorized, ...)`. -/
def unauthorizedResponse : HttpResponse := ⟨401, [("error", "unauthorized")]⟩

/-- The 503 response `writeJSON(w, http.StatusServiceUnavailable, ...)`. -/
def authUnavailableResponse : HttpResponse := ⟨503, [("error", "auth_unavailable")]⟩

/-- What the Auth middleware does with one request: write a rejection
response, or admit it downstream with identity and roles in context. -/
inductive AuthDecision
| respond (resp : HttpResponse)
| forward (userID : String) (roles : List String)
deriving DecidableEq, Repr

/-- Translation of `middleware.Auth` (gateway middleware, lines 73-113)
for one request: extract the bearer token (immediate 401 on failure,
without calling the validator), call the remote validator, and map its
outcome; the returned flag records whether the validator was invoked. -/
def Auth (validate : String → Except ValidatorErr (String × List String))
    (authorizationHeader : String) : AuthDecision × Bool :=
  match extractBearerToken authorizationHeader with
  | none => (.respond unauthorizedResponse, false)
  | some token =>
    match validate token with
    | .error err =>
      if isInvalidTokenError err then (.respond unauthorizedResponse, true)
      else if isUnavailableError err then (.respond authUnavailableResponse, true)
      else (.respond unauthorizedResponse, true)
    | .ok (userID, roles) => (.forward userID roles, true)

/-! ## Theorems -/

/-- C6: every refresh-token record transitions from valid to revoked at
most once and never back: `Revoke` reports `NotFound` when every record
with the given id is already revoked (or absent), and on success the
resulting table differs from the input only at records with the given id
whose `revoked_at` was null, which get `revoked_at` set to the revocation
instant — in particular an already-revoked record is never touched, so a
record never returns to the valid state. -/
theorem revoke_single_transition (st : RefreshStore) (tokenID : String) (t : Int) :
    ((∀ r ∈ st, r.id = tokenID → r.revokedAt ≠ none) →
      Revoke st tokenID t = .error .notFound) ∧
    (∀ st2, Revoke st tokenID t = .ok st2 →
      List.Forall₂ (fun r r2 =>
        ((r.id = tokenID ∧ r.revokedAt = none) → r2 = { r with revokedAt := some t }) ∧
        ((r.id ≠ tokenID ∨ r.revokedAt ≠ none) → r2 = r)) st st2) := by
  constructor
  · intro h
    have hany : st.any (fun r => r.id == tokenID && r.revokedAt == none) = false := by
      rw [List.any_eq_false]
      intro r hr
      simp only [Bool.and_eq_true, beq_iff_eq, not_and]
      intro hid hrev
      exact h r hr hid hrev
    rw [Revoke, hany]
    simp
  · intro st2 hok
    have hst : st2 = st.map (revokeRow tokenID t) := by
      rw [Revoke] at hok
      split at hok
      · exact (Except.ok.inj hok).symm
      · cases hok
    subst hst
    rw [List.forall₂_map_right_iff, List.forall₂_same]
    intro r _
    unfold revokeRow
    by_cases hcond : (r.id == tokenID && r.revokedAt == none) = true
    · rw [if_pos hcond]
      simp only [Bool.and_eq_true, beq_iff_eq] at hcond
      exact ⟨fun _ => rfl, fun hneg => by
        rcases hneg with h1 | h2
        · exact absurd hcond.1 h1
        · exact absurd hcond.2 h2⟩
    · rw [if_neg hcond]
      simp only [Bool.and_eq_true, beq_iff_eq, not_and] at hcond
      exact ⟨fun hpos => absurd hpos.2 (hcond hpos.1), fun _ => rfl⟩

/-- Witness for C6: revoking the already-revoked record `"a"` reports
`NotFound`; revoking the valid record `"b"` sets its `revoked_at` and
leaves the already-revoked record untouched. -/
theorem revoke_single_transition_witness :
    Revoke [⟨"a", "u", ⟨"h"⟩, 10, some 5, 0⟩] "a" 7 = .error .notFound ∧
    List.Forall₂ (fun (r r2 : RefreshTokenRow) =>
        ((r.id = "b" ∧ r.revokedAt = none) → r2 = { r with revokedAt := some (7 : Int) }) ∧
        ((r.id ≠ "b" ∨ r.revokedAt ≠ none) → r2 = r))
      [⟨"a", "u", ⟨"h"⟩, 10, some 5, 0⟩, ⟨"b", "u", ⟨"h2"⟩, 10, none, 0⟩]
      [⟨"a", "u", ⟨"h"⟩, 10, some 5, 0⟩, ⟨"b", "u", ⟨"h2"⟩, 10, some 7, 0⟩] :=
  ⟨(revoke_single_transition [⟨"a", "u", ⟨"h"⟩, 10, some 5, 0⟩] "a" 7).1 (by decide),
   (revoke_single_transition
      [⟨"a", "u", ⟨"h"⟩, 10, some 5, 0⟩, ⟨"b", "u", ⟨"h2"⟩, 10, none, 0⟩] "b" 7).2
      [⟨"a", "u", ⟨"h"⟩, 10, some 5, 0⟩, ⟨"b", "u", ⟨"h2"⟩, 10, some 7, 0⟩] rfl⟩

/-- C8: whenever the Authorization header is absent or is not a single
well-formed `Bearer token` value (no token can be extracted from it), the
Auth middleware responds 401 with body `error: unauthorized` and the
remote validator is never invoked. -/
theorem auth_no_bearer_rejects_without_remote_call
    (validate : String → Except ValidatorErr (String × List String))
    (headerValue : String)
    (h : extractBearerToken headerValue = none) :
    Auth validate headerValue = (.respond unauthorizedResponse, false) := by
  rw [Auth, h]

/-- Witness for C8: an absent header (Go's `Header.Get` returns the empty
string) and a malformed `Token abc` header are both rejected without
invoking the validator. -/
theorem auth_no_bearer_rejects_without_remote_call_witness :
    Auth (fun _ => .ok ("user-123", ["customer"])) "" =
      (.respond unauthorizedResponse, false) ∧
    Auth (fun _ => .ok ("user-123", ["customer"])) "Token abc" =
      (.respond unauthorizedResponse, false) :=
  ⟨auth_no_bearer_rejects_without_remote_call _ "" (by decide),
   auth_no_bearer_rejects_without_remote_call _ "Token abc" (by decide)⟩

/-- C7: for every error the remote validator returns, the Auth
middleware's response is a strict three-way split: a contract error whose
domain code is in the `AUTH_INVALID_` family gives 401 `unauthorized`;
context deadline-exceeded, cancellation, or a transport
unavailable/deadline-exceeded status gives 503 `auth_unavailable`; every
error outside both families gives 401; and the request is never forwarded
downstream. -/
theorem auth_error_three_way_split
    (validate : String → Except ValidatorErr (String × List String))
    (headerValue token : String) (err : ValidatorErr)
    (hx : extractBearerToken headerValue = some token)
    (hv : validate token = .error err) :
    ((∃ c m, err = .coded c m ∧ strStartsWith c "AUTH_INVALID_" = true) →
      (Auth validate headerValue).1 = .respond unauthorizedResponse) ∧
    ((err = .ctxDeadlineExceeded ∨ err = .ctxCanceled ∨
        (∃ m, err = .grpcStatus .unavailable m) ∨ (∃ m, err = .grpcStatus .deadlineExceeded m)) →
      (Auth validate headerValue).1 = .respond authUnavailableResponse) ∧
    ((¬ (∃ c m, err = .coded c m ∧ strStartsWith c "AUTH_INVALID_" = true) ∧
      ¬ (err = .ctxDeadlineExceeded ∨ err = .ctxCanceled ∨
        (∃ m, err = .grpcStatus .unavailable m) ∨ (∃ m, err = .grpcStatus .deadlineExceeded m))) →
      (Auth validate headerValue).1 = .respond unauthorizedResponse) ∧
    (∀ userID roles, (Auth validate headerValue).1 ≠ .forward userID roles) := by
  rw [Auth, hx]
  simp only [hv]
  refine ⟨?_, ?_, ?_, ?_⟩
  · rintro ⟨c, m, rfl, hpre⟩
    simp [isInvalidTokenError, hpre]
  · rintro (rfl | rfl | ⟨m, rfl⟩ | ⟨m, rfl⟩) <;>
      simp [isInvalidTokenError, isUnavailableError]
  · rintro ⟨hnotInvalid, hnotUnavailable⟩
    have hinv : isInvalidTokenError err = false := by
      cases err with
      | coded c m =>
        simp only [isInvalidTokenError]
        by_contra hc
        exact hnotInvalid ⟨c, m, rfl, by simpa using hc⟩
      | _ => rfl
    have hun : isUnavailableError err = false := by
      cases err with
      | ctxDeadlineExceeded => exact absurd (Or.inl rfl) hnotUnavailable
      | ctxCanceled => exact absurd (Or.inr (Or.inl rfl)) hnotUnavailable
      | grpcStatus code m =>
        cases code with
        | unavailable => exact absurd (Or.inr (Or.inr (Or.inl ⟨m, rfl⟩))) hnotUnavailable
        | deadlineExceeded => exact absurd (Or.inr (Or.inr (Or.inr ⟨m, rfl⟩))) hnotUnavailable
        | _ => rfl
      | _ => rfl
    simp [hinv, hun]
  · intro userID roles
    by_cases hinv : isInvalidTokenError err = true
    · simp [hinv]
    · by_cases hun : isUnavailableError err = true <;>
        simp [hinv, hun]

/-- Witness for C7: with a well-formed header, an `AUTH_INVALID_TOKEN`
contract error gives 401, a transport-unavailable status gives 503, and a
plain error outside both families gives 401. -/
theorem auth_error_three_way_split_witness :
    (Auth (fun _ => .error (.coded "AUTH_INVALID_TOKEN" "invalid token")) "Bearer bad-token").1 =
      .respond unauthorizedResponse ∧
    (Auth (fun _ => .error (.grpcStatus .unavailable "connection refused")) "Bearer some-token").1 =
      .respond authUnavailableResponse ∧
    (Auth (fun _ => .error (.plain "boom")) "Bearer tok").1 = .respond unauthorizedResponse :=
  ⟨(auth_error_three_way_split _ "Bearer bad-token" "bad-token"
      (.coded "AUTH_INVALID_TOKEN" "invalid token") (by decide) rfl).1
      ⟨"AUTH_INVALID_TOKEN", "invalid token", rfl, by decide⟩,
   (auth_error_three_way_split _ "Bearer some-token" "some-token"
      (.grpcStatus .unavailable "connection refused") (by decide) rfl).2.1
      (Or.inr (Or.inr (Or.inl ⟨"connection refused", rfl⟩))),
   (auth_error_three_way_split _ "Bearer tok" "tok" (.plain "boom") (by decide) rfl).2.2.1
      ⟨(by rintro ⟨c, m, h, -⟩; cases h), (by rintro (h | h | ⟨m, h⟩ | ⟨m, h⟩) <;> cases h)⟩⟩

/-- C2: within one `RefreshToken` operation the revoke of the found
record is attempted before any new pair is issued: whenever the revoke
call fails with any error, the operation signs no new access token and
inserts no new refresh record (the effect trace is empty), returning the
`AUTH_INVALID_REFRESH_TOKEN` domain error when the failure is `NotFound`
and an infrastructure failure otherwise. -/
theorem refresh_revoke_before_issue
    (d : RefreshDeps) (now accessTokenTTL refreshTTL : Int) (ent : Entropy)
    (refreshToken : String) (row : RefreshTokenRow) (user : UserRow) (e : RepoErr)
    (hne : (strTrim refreshToken == "") = false)
    (hlookup : d.getValidByHash (HashToken (strTrim refreshToken)) now = .ok row)
    (huser : d.getUserByID row.userId = .ok user)
    (hrevoke : d.revoke row.id now = .error e) :
    (RefreshTokenT d now accessTokenTTL refreshTTL ent refreshToken).2 = [] ∧
    (e = .notFound →
      RefreshTokenT d now accessTokenTTL refreshTTL ent refreshToken =
        (⟨AuthTokens.empty, some invalidRefreshTokenErr, none⟩, [])) ∧
    (e ≠ .notFound →
      RefreshTokenT d now accessTokenTTL refreshTTL ent refreshToken =
        (⟨AuthTokens.empty, none, some "revoke refresh token"⟩, [])) := by
  rw [RefreshTokenT]
  simp only [hne, Bool.false_eq_true, if_false, hlookup, huser, hrevoke]
  cases e with
  | notFound => exact ⟨rfl, ⟨fun _ => rfl, fun h => absurd rfl h⟩⟩
  | emailTaken => exact ⟨rfl, ⟨fun h => (nomatch h), fun _ => rfl⟩⟩
  | infra op => exact ⟨rfl, ⟨fun h => (nomatch h), fun _ => rfl⟩⟩

/-- Witness for C2: with a store oracle whose revoke reports `NotFound`,
the operation returns the invalid-refresh-token domain error and performs
no sign and no insert. -/
theorem refresh_revoke_before_issue_witness :
    RefreshTokenT
      ⟨fun _ _ => .ok ⟨"rt1", "u1", ⟨"raw1"⟩, 100, none, 0⟩,
       fun _ => .ok ⟨"u1", "a@x.com", "Ann", ⟨"pw"⟩, ["customer"], 0⟩,
       fun _ _ => .error .notFound,
       fun _ _ _ => .error "unused",
       fun _ => .ok ()⟩
      5 15 100 ⟨"uid2", "jti2", "raw2", "rt2"⟩ "raw1" =
      (⟨AuthTokens.empty, some invalidRefreshTokenErr, none⟩, []) :=
  (refresh_revoke_before_issue
    ⟨fun _ _ => .ok ⟨"rt1", "u1", ⟨"raw1"⟩, 100, none, 0⟩,
     fun _ => .ok ⟨"u1", "a@x.com", "Ann", ⟨"pw"⟩, ["customer"], 0⟩,
     fun _ _ => .error .notFound,
     fun _ _ _ => .error "unused",
     fun _ => .ok ()⟩
    5 15 100 ⟨"uid2", "jti2", "raw2", "rt2"⟩ "raw1"
    ⟨"rt1", "u1", ⟨"raw1"⟩, 100, none, 0⟩
    ⟨"u1", "a@x.com", "Ann", ⟨"pw"⟩, ["customer"], 0⟩
    .notFound (by decide) rfl rfl rfl).2.1 rfl

/-- Inversion of a successful `SignAccessToken` call: the guards passed
and the returned token is the HS256-signed claims set. -/
theorem signAccessToken_ok_inv (m : JWTManager) (userID : String) (roles : List String)
    (ttl : Int) (jti : String) (tok : JwtToken) (expiresAt : Int)
    (h : SignAccessToken m userID roles ttl jti = .ok (tok, expiresAt)) :
    (strTrim userID == "") = false ∧ 0 < ttl ∧ expiresAt = m.now + ttl ∧
    tok = ⟨"HS256", ⟨roles, userID, m.issuer, m.now, m.now + ttl, jti⟩,
      hmacSign m.secret "HS256" ⟨roles, userID, m.issuer, m.now, m.now + ttl, jti⟩⟩ := by
  rw [SignAccessToken] at h
  by_cases h1 : (strTrim userID == "") = true
  · rw [if_pos h1] at h; cases h
  · rw [if_neg h1] at h
    by_cases h2 : ttl ≤ 0
    · rw [if_pos h2] at h; cases h
    · rw [if_neg h2] at h
      simp only [Except.ok.injEq, Prod.mk.injEq] at h
      exact ⟨Bool.not_eq_true _ ▸ eq_false_of_ne_true h1, lt_of_not_le h2,
        h.2.symm, h.1.symm⟩

/-- Verification outcome for a token produced by `SignAccessToken`, under
the same secret and issuer and an arbitrary clock instant: accepted with
the original subject and roles while the clock is before the expiry, and
rejected as expired from the expiry instant on. -/
theorem verifyAccessToken_of_sign (m : JWTManager) (userID : String) (roles : List String)
    (ttl : Int) (jti : String) (tok : JwtToken) (expiresAt t : Int)
    (hsign : SignAccessToken m userID roles ttl jti = .ok (tok, expiresAt)) :
    (t < expiresAt → VerifyAccessToken ⟨m.secret, m.issuer, t⟩ tok = .ok (userID, roles)) ∧
    (¬ t < expiresAt → VerifyAccessToken ⟨m.secret, m.issuer, t⟩ tok = .error .expiredToken) := by
  obtain ⟨hsubj, -, hexp, htok⟩ := signAccessToken_ok_inv m userID roles ttl jti tok expiresAt hsign
  subst htok
  subst hexp
  rw [VerifyAccessToken]
  constructor
  · intro ht
    simp [hmacSign, hsubj, ht]
  · intro ht
    simp [hmacSign, hsubj, ht]

/-- C4: verifying the token produced by `SignAccessToken` — with the same
secret and issuer, at a clock instant strictly before the expiry —
returns exactly the user id and exactly the role list passed to sign,
with role order preserved. (A whitespace-only user id makes sign fail, so
every produced token carries a subject that survives the verifier's
trimmed-blank check.) -/
theorem sign_verify_roundtrip (m : JWTManager) (userID : String) (roles : List String)
    (ttl : Int) (jti : String) (tok : JwtToken) (expiresAt t : Int)
    (hsign : SignAccessToken m userID roles ttl jti = .ok (tok, expiresAt))
    (ht : t < expiresAt) :
    VerifyAccessToken ⟨m.secret, m.issuer, t⟩ tok = .ok (userID, roles) :=
  (verifyAccessToken_of_sign m userID roles ttl jti tok expiresAt t hsign).1 ht

/-- Witness for C4: a token signed for `user-1` with roles
`[customer, premium]` and ttl 15 at time 0 verifies at time 10 to exactly
that subject and role list. -/
theorem sign_verify_roundtrip_witness :
    VerifyAccessToken ⟨"sec", "iss", 10⟩
      ⟨"HS256", ⟨["customer", "premium"], "user-1", "iss", 0, 15, "j"⟩,
        hmacSign "sec" "HS256" ⟨["customer", "premium"], "user-1", "iss", 0, 15, "j"⟩⟩ =
      .ok ("user-1", ["customer", "premium"]) :=
  sign_verify_roundtrip ⟨"sec", "iss", 0⟩ "user-1" ["customer", "premium"] 15 "j"
    ⟨"HS256", ⟨["customer", "premium"], "user-1", "iss", 0, 15, "j"⟩,
      hmacSign "sec" "HS256" ⟨["customer", "premium"], "user-1", "iss", 0, 15, "j"⟩⟩
    15 10 rfl (by decide)

/-- C3 counterexample: a correctly signed, correctly-issued HS256 token
whose subject is empty and whose expiry lies in the past is rejected with
`ErrExpiredToken`, not `ErrInvalidToken` — the source maps the parser's
expiry failure before it ever reaches the blank-subject check, so "empty
subject yields ErrInvalidToken, never ErrExpiredToken" fails. -/
theorem verify_empty_subject_expired_counterexample :
    VerifyAccessToken ⟨"sec", "iss", 20⟩
      ⟨"HS256", ⟨[], "", "iss", 0, 10, "j"⟩, hmacSign "sec" "HS256" ⟨[], "", "iss", 0, 10, "j"⟩⟩ =
      .error .expiredToken ∧
    strTrim "" = "" := by
  exact ⟨rfl, rfl⟩

/-- C3 (amended): for every token signed by `SignAccessToken` with
`ttl > 0`, `VerifyAccessToken` under an injected clock succeeds at every
instant strictly before the expiry and fails with `ErrExpiredToken` at
every instant strictly after; a wrong signature, a different signing
algorithm, or a wrong issuer yields `ErrInvalidToken`; and an empty
subject yields `ErrInvalidToken` provided the token is not already past
expiry (expiry is checked during parsing, before the subject check). -/
theorem verify_error_classification (m : JWTManager) :
    (∀ (userID : String) (roles : List String) (ttl : Int) (jti : String) (tok : JwtToken)
        (expiresAt t : Int),
      SignAccessToken m userID roles ttl jti = .ok (tok, expiresAt) →
        (t < expiresAt → VerifyAccessToken ⟨m.secret, m.issuer, t⟩ tok = .ok (userID, roles)) ∧
        (expiresAt < t →
          VerifyAccessToken ⟨m.secret, m.issuer, t⟩ tok = .error .expiredToken)) ∧
    (∀ tok : JwtToken, tok.alg ≠ "HS256" → VerifyAccessToken m tok = .error .invalidToken) ∧
    (∀ tok : JwtToken, tok.sig ≠ hmacSign m.secret tok.alg tok.claims →
      VerifyAccessToken m tok = .error .invalidToken) ∧
    (∀ tok : JwtToken, tok.claims.issuer ≠ m.issuer →
      VerifyAccessToken m tok = .error .invalidToken) ∧
    (∀ tok : JwtToken, strTrim tok.claims.subject = "" → m.now < tok.claims.expiresAt →
      VerifyAccessToken m tok = .error .invalidToken) := by
  refine ⟨?_, ?_, ?_, ?_, ?_⟩
  · intro userID roles ttl jti tok expiresAt t hsign
    refine ⟨(verifyAccessToken_of_sign m userID roles ttl jti tok expiresAt t hsign).1, ?_⟩
    intro hlt
    exact (verifyAccessToken_of_sign m userID roles ttl jti tok expiresAt t hsign).2
      (not_lt.mpr (le_of_lt hlt))
  · intro tok h
    simp [VerifyAccessToken, bne_iff_ne, h]
  · intro tok h
    by_cases halg : tok.alg = "HS256"
    · simp [VerifyAccessToken, bne_iff_ne, h]
    · simp [VerifyAccessToken, bne_iff_ne, halg]
  · intro tok h
    by_cases halg : tok.alg = "HS256"
    · by_cases hsig : tok.sig = hmacSign m.secret tok.alg tok.claims
      · simp [VerifyAccessToken, bne_iff_ne, h, hsig]
      · simp [VerifyAccessToken, bne_iff_ne, hsig]
    · simp [VerifyAccessToken, bne_iff_ne, halg]
  · intro tok hsubj hexp
    by_cases halg : tok.alg = "HS256"
    · by_cases hsig : tok.sig = hmacSign m.secret tok.alg tok.claims
      · by_cases hiss : tok.claims.issuer = m.issuer
        · simp [VerifyAccessToken, bne_iff_ne, hsig, hiss, hexp, hsubj]
        · simp [VerifyAccessToken, bne_iff_ne, hiss]
      · simp [VerifyAccessToken, bne_iff_ne, hsig]
    · simp [VerifyAccessToken, bne_iff_ne, halg]

/-- Witness for the amended C3: a signed token verifies before expiry and
reports expired strictly after; a correctly signed but wrongly-issued
token reports invalid; an unexpired empty-subject token reports invalid. -/
theorem verify_error_classification_witness :
    VerifyAccessToken ⟨"sec", "iss", 10⟩
      ⟨"HS256", ⟨["customer"], "user-1", "iss", 0, 15, "j"⟩,
        hmacSign "sec" "HS256" ⟨["customer"], "user-1", "iss", 0, 15, "j"⟩⟩ =
      .ok ("user-1", ["customer"]) ∧
    VerifyAccessToken ⟨"sec", "iss", 20⟩
      ⟨"HS256", ⟨["customer"], "user-1", "iss", 0, 15, "j"⟩,
        hmacSign "sec" "HS256" ⟨["customer"], "user-1", "iss", 0, 15, "j"⟩⟩ =
      .error .expiredToken ∧
    VerifyAccessToken ⟨"sec", "iss", 5⟩
      ⟨"HS256", ⟨[], "u", "other", 0, 15, "j"⟩,
        hmacSign "sec" "HS256" ⟨[], "u", "other", 0, 15, "j"⟩⟩ = .error .invalidToken ∧
    VerifyAccessToken ⟨"sec", "iss", 5⟩
      ⟨"HS256", ⟨[], " ", "iss", 0, 15, "j"⟩,
        hmacSign "sec" "HS256" ⟨[], " ", "iss", 0, 15, "j"⟩⟩ = .error .invalidToken :=
  ⟨((verify_error_classification ⟨"sec", "iss", 0⟩).1 "user-1" ["customer"] 15 "j"
      ⟨"HS256", ⟨["customer"], "user-1", "iss", 0, 15, "j"⟩,
        hmacSign "sec" "HS256" ⟨["customer"], "user-1", "iss", 0, 15, "j"⟩⟩ 15 10 rfl).1
      (by decide),
   ((verify_error_classification ⟨"sec", "iss", 0⟩).1 "user-1" ["customer"] 15 "j"
      ⟨"HS256", ⟨["customer"], "user-1", "iss", 0, 15, "j"⟩,
        hmacSign "sec" "HS256" ⟨["customer"], "user-1", "iss", 0, 15, "j"⟩⟩ 15 20 rfl).2
      (by decide),
   (verify_error_classification ⟨"sec", "iss", 5⟩).2.2.2.1
      ⟨"HS256", ⟨[], "u", "other", 0, 15, "j"⟩,
        hmacSign "sec" "HS256" ⟨[], "u", "other", 0, 15, "j"⟩⟩ (by decide),
   (verify_error_classification ⟨"sec", "iss", 5⟩).2.2.2.2
      ⟨"HS256", ⟨[], " ", "iss", 0, 15, "j"⟩,
        hmacSign "sec" "HS256" ⟨[], " ", "iss", 0, 15, "j"⟩⟩ (by decide) (by decide)⟩

/-- C5: a Login with an email matching no user and a Login with a known
email but a password failing hash verification return the identical
domain error value (`AUTH_INVALID_CREDENTIALS` with the same message) and
identical zero-value success payloads — the two runs are equal as whole
results, and neither touches the stores. -/
theorem login_failure_indistinguishable
    (w : AuthWorld) (ent : Entropy) (email1 password1 email2 password2 : String) (u : UserRow)
    (h1e : (strToLower (strTrim email1) == "") = false)
    (h1p : (strTrim password1 == "") = false)
    (h2e : (strToLower (strTrim email2) == "") = false)
    (h2p : (strTrim password2 == "") = false)
    (hunknown : GetByEmail w.users (strToLower (strTrim email1)) = .error .notFound)
    (hknown : GetByEmail w.users (strToLower (strTrim email2)) = .ok u)
    (hwrong : BcryptHasher.verify u.passwordHash password2 = false) :
    Login w ent email1 password1 = Login w ent email2 password2 ∧
    Login w ent email1 password1 =
      (w, ⟨User.empty, AuthTokens.empty, some invalidCredentialsErr, none⟩) := by
  have hrun1 : Login w ent email1 password1 =
      (w, ⟨User.empty, AuthTokens.empty, some invalidCredentialsErr, none⟩) := by
    rw [Login]
    simp only [h1e, h1p, Bool.or_self, Bool.false_eq_true, if_false, hunknown]
  have hrun2 : Login w ent email2 password2 =
      (w, ⟨User.empty, AuthTokens.empty, some invalidCredentialsErr, none⟩) := by
    rw [Login]
    simp only [h2e, h2p, Bool.or_self, Bool.false_eq_true, if_false, hknown, hwrong,
      Bool.not_false, if_true]
  exact ⟨hrun1.trans hrun2.symm, hrun1⟩

/-- Witness for C5: against a store holding one user `a@x.com` with
password `pw`, logging in as unknown `nobody@x.com` and logging in as
`a@x.com` with the wrong password produce the identical
invalid-credentials result. -/
theorem login_failure_indistinguishable_witness :
    Login ⟨[⟨"u1", "a@x.com", "Ann", ⟨"pw"⟩, ["customer"], 0⟩], [], "sec", "iss", 15, 100, 5⟩
        ⟨"uid2", "jti2", "raw2", "rt2"⟩ "nobody@x.com" "pw" =
      Login ⟨[⟨"u1", "a@x.com", "Ann", ⟨"pw"⟩, ["customer"], 0⟩], [], "sec", "iss", 15, 100, 5⟩
        ⟨"uid2", "jti2", "raw2", "rt2"⟩ "a@x.com" "wrong" ∧
    Login ⟨[⟨"u1", "a@x.com", "Ann", ⟨"pw"⟩, ["customer"], 0⟩], [], "sec", "iss", 15, 100, 5⟩
        ⟨"uid2", "jti2", "raw2", "rt2"⟩ "nobody@x.com" "pw" =
      (⟨[⟨"u1", "a@x.com", "Ann", ⟨"pw"⟩, ["customer"], 0⟩], [], "sec", "iss", 15, 100, 5⟩,
        ⟨User.empty, AuthTokens.empty, some invalidCredentialsErr, none⟩) :=
  login_failure_indistinguishable
    ⟨[⟨"u1", "a@x.com", "Ann", ⟨"pw"⟩, ["customer"], 0⟩], [], "sec", "iss", 15, 100, 5⟩
    ⟨"uid2", "jti2", "raw2", "rt2"⟩ "nobody@x.com" "pw" "a@x.com" "wrong"
    ⟨"u1", "a@x.com", "Ann", ⟨"pw"⟩, ["customer"], 0⟩
    (by decide) (by decide) (by decide) (by decide) rfl rfl (by decide)

/-- C9: every successful Register call persists the created user with
role list exactly `["customer"]` — regardless of input — and the access
token issued at registration carries exactly those roles. -/
theorem register_always_roles_customer
    (w : AuthWorld) (ent : Entropy) (email password name : String)
    (w2 : AuthWorld) (res : LoginResult)
    (hreg : Register w ent email password name = (w2, res))
    (hdom : res.domainErr = none) (hinfra : res.infraErr = none) :
    (∃ row ∈ w2.users, row.id = ent.userID ∧ row.roles = ["customer"]) ∧
    res.user.roles = ["customer"] ∧
    (∃ tok, res.tokens.accessToken = some tok ∧ tok.claims.roles = ["customer"]) := by
  by_cases hblank :
      (strToLower (strTrim email) == "" || strTrim password == "" || strTrim name == "") = true
  · simp only [Register, hblank, if_true] at hreg
    rw [Prod.mk.injEq] at hreg
    rw [← hreg.2] at hdom
    simp at hdom
  · have hblank2 :
        (strToLower (strTrim email) == "" || strTrim password == "" || strTrim name == "") =
          false := by
      exact eq_false_of_ne_true hblank
    simp only [Register, hblank2, Bool.false_eq_true, if_false] at hreg
    rcases hcu : CreateUser w.users
        ⟨ent.userID, strToLower (strTrim email), strTrim name,
          BcryptHasher.hash password, ["customer"]⟩ w.now with e | pair
    · rw [hcu] at hreg
      cases e with
      | notFound =>
        rw [Prod.mk.injEq] at hreg
        rw [← hreg.2] at hinfra
        simp at hinfra
      | emailTaken =>
        rw [Prod.mk.injEq] at hreg
        rw [← hreg.2] at hdom
        simp at hdom
      | infra op =>
        rw [Prod.mk.injEq] at hreg
        rw [← hreg.2] at hinfra
        simp at hinfra
    · obtain ⟨createdUser, users2⟩ := pair
      simp only [hcu] at hreg
      have hrow : createdUser =
          ⟨ent.userID, strToLower (strTrim email), strTrim name,
            BcryptHasher.hash password, ["customer"], w.now⟩ ∧
          users2 = w.users ++
            [⟨ent.userID, strToLower (strTrim email), strTrim name,
              BcryptHasher.hash password, ["customer"], w.now⟩] := by
        rw [CreateUser] at hcu
        split at hcu
        · cases hcu
        · simp only [Except.ok.injEq, Prod.mk.injEq] at hcu
          exact ⟨hcu.1.symm, hcu.2.symm⟩
      rcases hit : issueTokens { w with users := users2 } ent createdUser.id
          createdUser.roles with e2 | tpair
      · simp only [hit] at hreg
        rw [Prod.mk.injEq] at hreg
        rw [← hreg.2] at hinfra
        simp at hinfra
      · obtain ⟨tokens, st⟩ := tpair
        simp only [hit] at hreg
        rw [Prod.mk.injEq] at hreg
        obtain ⟨hw2, hres⟩ := hreg
        rcases hsig : SignAccessToken ({ w with users := users2 } : AuthWorld).jwt
            createdUser.id createdUser.roles w.accessTokenTTL ent.jti with e3 | spair
        · rw [issueTokens, hsig] at hit
          cases hit
        · obtain ⟨accessToken, signExp⟩ := spair
          rw [issueTokens, hsig] at hit
          simp only [Except.ok.injEq, Prod.mk.injEq] at hit
          have htokens : tokens =
              ⟨some accessToken, ent.rawRefreshToken, w.accessTokenTTL, w.refreshTTL⟩ :=
            hit.1.symm
          have hroles : accessToken.claims.roles = createdUser.roles := by
            obtain ⟨-, -, -, htok⟩ := signAccessToken_ok_inv _ _ _ _ _ _ _ hsig
            rw [htok]
          refine ⟨?_, ?_, ?_⟩
          · refine ⟨createdUser, ?_, ?_, ?_⟩
            · rw [← hw2]
              show createdUser ∈ users2
              rw [hrow.2, hrow.1]
              exact List.mem_append_right _ (List.mem_singleton_self _)
            · rw [hrow.1]
            · rw [hrow.1]
          · rw [← hres]
            show (mapUser createdUser).roles = ["customer"]
            rw [hrow.1]
            rfl
          · refine ⟨accessToken, ?_, ?_⟩
            · rw [← hres]
              show tokens.accessToken = some accessToken
              rw [htokens]
            · rw [hroles, hrow.1]

/-- Witness for C9: registering `b@x.com` against an empty store succeeds
and the persisted row, the returned user and the signed access token all
carry exactly `["customer"]`. -/
theorem register_always_roles_customer_witness :
    (∃ row ∈ (Register ⟨[], [], "sec", "iss", 15, 100, 5⟩
        ⟨"uid2", "jti2", "raw2", "rt2"⟩ "b@x.com" "pw2" "Bob").1.users,
      row.id = "uid2" ∧ row.roles = ["customer"]) ∧
    (Register ⟨[], [], "sec", "iss", 15, 100, 5⟩
        ⟨"uid2", "jti2", "raw2", "rt2"⟩ "b@x.com" "pw2" "Bob").2.user.roles = ["customer"] ∧
    (∃ tok, (Register ⟨[], [], "sec", "iss", 15, 100, 5⟩
        ⟨"uid2", "jti2", "raw2", "rt2"⟩ "b@x.com" "pw2" "Bob").2.tokens.accessToken = some tok ∧
      tok.claims.roles = ["customer"]) :=
  register_always_roles_customer ⟨[], [], "sec", "iss", 15, 100, 5⟩
    ⟨"uid2", "jti2", "raw2", "rt2"⟩ "b@x.com" "pw2" "Bob"
    (Register ⟨[], [], "sec", "iss", 15, 100, 5⟩
      ⟨"uid2", "jti2", "raw2", "rt2"⟩ "b@x.com" "pw2" "Bob").1
    (Register ⟨[], [], "sec", "iss", 15, 100, 5⟩
      ⟨"uid2", "jti2", "raw2", "rt2"⟩ "b@x.com" "pw2" "Bob").2
    rfl (by decide) (by decide)

/-- The conditional revoke update never changes a row's hash. -/
theorem revokeRow_tokenHash (tokenID : String) (t : Int) (r : RefreshTokenRow) :
    (revokeRow tokenID t r).tokenHash = r.tokenHash := by
  rw [revokeRow]
  split <;> rfl

/-- After mapping the conditional revoke update over the store, every row
that carries the revoked id is left with a non-null `revoked_at`. -/
theorem revokeRow_revokes (tokenID : String) (t : Int) (r : RefreshTokenRow)
    (hid : r.id = tokenID) : (revokeRow tokenID t r).revokedAt ≠ none := by
  rw [revokeRow]
  split
  · simp
  · next h =>
    intro hnone
    apply h
    simp [hid, hnone]

/-- C1: refresh rotation is single-use. For a raw token whose record is
found valid in the store (with the hash uniquely identifying that record,
per the unique index on the hash column, and fresh randomness for the
replacement token), the first `RefreshToken` call succeeds and revokes
every record matching the presented hash, and a second call presenting
the same raw value — with no interleaved operations, at any later clock
instant — returns the `AUTH_INVALID_REFRESH_TOKEN` domain error, issues
no new token pair and leaves the store untouched. -/
theorem refresh_token_single_use
    (w : AuthWorld) (ent1 ent2 : Entropy) (refreshToken : String) (r : RefreshTokenRow)
    (u : UserRow) (t2 : Int)
    (hne : (strTrim refreshToken == "") = false)
    (hfound : GetValidByHash w.refreshTokens (HashToken (strTrim refreshToken)) w.now = .ok r)
    (huniq : ∀ r2 ∈ w.refreshTokens,
      r2.tokenHash = HashToken (strTrim refreshToken) → r2.id = r.id)
    (huser : GetByID w.users r.userId = .ok u)
    (hsubj : (strTrim u.id == "") = false)
    (httl : 0 < w.accessTokenTTL)
    (hfresh : ent1.rawRefreshToken ≠ strTrim refreshToken) :
    (RefreshToken w ent1 refreshToken).2.domainErr = none ∧
    (RefreshToken w ent1 refreshToken).2.infraErr = none ∧
    (∀ r2 ∈ (RefreshToken w ent1 refreshToken).1.refreshTokens,
      r2.tokenHash = HashToken (strTrim refreshToken) → r2.revokedAt ≠ none) ∧
    RefreshToken { (RefreshToken w ent1 refreshToken).1 with now := t2 } ent2 refreshToken =
      ({ (RefreshToken w ent1 refreshToken).1 with now := t2 },
        ⟨AuthTokens.empty, some invalidRefreshTokenErr, none⟩) := by
  have hmem_match : r ∈ w.refreshTokens ∧
      rowMatchesValid (HashToken (strTrim refreshToken)) w.now r = true := by
    rw [GetValidByHash] at hfound
    rcases hfind : w.refreshTokens.find?
        (rowMatchesValid (HashToken (strTrim refreshToken)) w.now) with _ | r3
    · simp only [hfind] at hfound
      cases hfound
    · simp only [hfind] at hfound
      have hr3 : r3 = r := Except.ok.inj hfound
      subst hr3
      exact ⟨List.mem_of_find?_eq_some hfind, List.find?_some hfind⟩
  obtain ⟨hmem, hmatchb⟩ := hmem_match
  have hmatch : (r.tokenHash = HashToken (strTrim refreshToken) ∧ r.revokedAt = none) ∧
      w.now < r.expiresAt := by
    simpa [rowMatchesValid, Bool.and_eq_true, beq_iff_eq, decide_eq_true_eq] using hmatchb
  have hrev : Revoke w.refreshTokens r.id w.now =
      .ok (w.refreshTokens.map (revokeRow r.id w.now)) := by
    rw [Revoke, if_pos]
    exact List.any_eq_true.mpr ⟨r, hmem, by simp [hmatch.1.2]⟩
  have hsig : SignAccessToken ⟨w.secret, w.issuer, w.now⟩ u.id u.roles w.accessTokenTTL
      ent1.jti =
      .ok (⟨"HS256", ⟨u.roles, u.id, w.issuer, w.now, w.now + w.accessTokenTTL, ent1.jti⟩,
        hmacSign w.secret "HS256"
          ⟨u.roles, u.id, w.issuer, w.now, w.now + w.accessTokenTTL, ent1.jti⟩⟩,
        w.now + w.accessTokenTTL) := by
    rw [SignAccessToken]
    simp only [hsubj, Bool.false_eq_true, if_false]
    rw [if_neg (not_le.mpr httl)]
  have hfirst : RefreshToken w ent1 refreshToken =
      (⟨w.users,
        w.refreshTokens.map (revokeRow r.id w.now) ++
          [⟨ent1.refreshTokenID, u.id, HashToken ent1.rawRefreshToken,
            w.now + w.refreshTTL, none, w.now⟩],
        w.secret, w.issuer, w.accessTokenTTL, w.refreshTTL, w.now⟩,
       ⟨⟨some ⟨"HS256", ⟨u.roles, u.id, w.issuer, w.now, w.now + w.accessTokenTTL, ent1.jti⟩,
          hmacSign w.secret "HS256"
            ⟨u.roles, u.id, w.issuer, w.now, w.now + w.accessTokenTTL, ent1.jti⟩⟩,
         ent1.rawRefreshToken, w.accessTokenTTL, w.refreshTTL⟩, none, none⟩) := by
    rw [RefreshToken]
    simp only [hne, Bool.false_eq_true, if_false, hfound, huser, hrev, issueTokens,
      AuthWorld.jwt, hsig, InsertRefreshToken]
  have hall : ∀ r2 ∈ (w.refreshTokens.map (revokeRow r.id w.now) ++
        [⟨ent1.refreshTokenID, u.id, HashToken ent1.rawRefreshToken,
          w.now + w.refreshTTL, none, w.now⟩]),
      r2.tokenHash = HashToken (strTrim refreshToken) → r2.revokedAt ≠ none := by
    intro r2 hr2 hhash
    rcases List.mem_append.mp hr2 with hmap | hnew
    · obtain ⟨r3, hr3, rfl⟩ := List.mem_map.mp hmap
      refine revokeRow_revokes r.id w.now r3 ?_
      refine huniq r3 hr3 ?_
      rw [← revokeRow_tokenHash r.id w.now r3]
      exact hhash
    · rw [List.mem_singleton] at hnew
      subst hnew
      simp only [HashToken, Sha256.mk.injEq] at hhash
      exact absurd hhash hfresh
  have hlook2 : GetValidByHash
      (w.refreshTokens.map (revokeRow r.id w.now) ++
        [⟨ent1.refreshTokenID, u.id, HashToken ent1.rawRefreshToken,
          w.now + w.refreshTTL, none, w.now⟩])
      (HashToken (strTrim refreshToken)) t2 = .error .notFound := by
    rw [GetValidByHash]
    have hnone : List.find? (rowMatchesValid (HashToken (strTrim refreshToken)) t2)
        (w.refreshTokens.map (revokeRow r.id w.now) ++
          [⟨ent1.refreshTokenID, u.id, HashToken ent1.rawRefreshToken,
            w.now + w.refreshTTL, none, w.now⟩]) = none := by
      rw [List.find?_eq_none]
      intro x hx hxmatch
      have hx2 : x.tokenHash = HashToken (strTrim refreshToken) ∧ x.revokedAt = none := by
        have := hxmatch
        simp only [rowMatchesValid, Bool.and_eq_true, beq_iff_eq] at this
        exact ⟨this.1.1, this.1.2⟩
      exact hall x hx hx2.1 hx2.2
    rw [hnone]
  refine ⟨by rw [hfirst], by rw [hfirst], by rw [hfirst]; exact hall, ?_⟩
  rw [hfirst]
  rw [RefreshToken]
  simp only [hne, Bool.false_eq_true, if_false, hlook2]

/-- Witness for C1: against a store holding one valid record for `raw1`,
the first rotation succeeds and revokes it, and a second presentation of
`raw1` one instant later returns the invalid-refresh-token domain error
with the zero token pair and an unchanged world. -/
theorem refresh_token_single_use_witness :
    (RefreshToken ⟨[⟨"u1", "a@x.com", "Ann", ⟨"pw"⟩, ["customer"], 0⟩],
        [⟨"rt1", "u1", ⟨"raw1"⟩, 100, none, 0⟩], "sec", "iss", 15, 100, 5⟩
      ⟨"uid2", "jti2", "raw2", "rt2"⟩ "raw1").2.domainErr = none ∧
    (RefreshToken ⟨[⟨"u1", "a@x.com", "Ann", ⟨"pw"⟩, ["customer"], 0⟩],
        [⟨"rt1", "u1", ⟨"raw1"⟩, 100, none, 0⟩], "sec", "iss", 15, 100, 5⟩
      ⟨"uid2", "jti2", "raw2", "rt2"⟩ "raw1").2.infraErr = none ∧
    (∀ r2 ∈ (RefreshToken ⟨[⟨"u1", "a@x.com", "Ann", ⟨"pw"⟩, ["customer"], 0⟩],
        [⟨"rt1", "u1", ⟨"raw1"⟩, 100, none, 0⟩], "sec", "iss", 15, 100, 5⟩
      ⟨"uid2", "jti2", "raw2", "rt2"⟩ "raw1").1.refreshTokens,
      r2.tokenHash = HashToken (strTrim "raw1") → r2.revokedAt ≠ none) ∧
    RefreshToken
      { (RefreshToken ⟨[⟨"u1", "a@x.com", "Ann", ⟨"pw"⟩, ["customer"], 0⟩],
          [⟨"rt1", "u1", ⟨"raw1"⟩, 100, none, 0⟩], "sec", "iss", 15, 100, 5⟩
        ⟨"uid2", "jti2", "raw2", "rt2"⟩ "raw1").1 with now := 6 }
      ⟨"x", "y", "raw3", "rt3"⟩ "raw1" =
      ({ (RefreshToken ⟨[⟨"u1", "a@x.com", "Ann", ⟨"pw"⟩, ["customer"], 0⟩],
          [⟨"rt1", "u1", ⟨"raw1"⟩, 100, none, 0⟩], "sec", "iss", 15, 100, 5⟩
        ⟨"uid2", "jti2", "raw2", "rt2"⟩ "raw1").1 with now := 6 },
        ⟨AuthTokens.empty, some invalidRefreshTokenErr, none⟩) :=
  refresh_token_single_use
    ⟨[⟨"u1", "a@x.com", "Ann", ⟨"pw"⟩, ["customer"], 0⟩],
      [⟨"rt1", "u1", ⟨"raw1"⟩, 100, none, 0⟩], "sec", "iss", 15, 100, 5⟩
    ⟨"uid2", "jti2", "raw2", "rt2"⟩ ⟨"x", "y", "raw3", "rt3"⟩ "raw1"
    ⟨"rt1", "u1", ⟨"raw1"⟩, 100, none, 0⟩
    ⟨"u1", "a@x.com", "Ann", ⟨"pw"⟩, ["customer"], 0⟩ 6
    (by decide) rfl (by decide) rfl (by decide) (by decide) (by decide)

end GoCommerce
